import Mathlib

/-!
Shallow embedding of the chainer primitive-operation layer:
`chainer/functions/basic_math.py` and `chainer/functions/linear.py`.

Modelling conventions:
* numpy arrays of a fixed shape are total functions from `Fin n` (resp. a pair
  of `Fin` indices for 2-D arrays) to a scalar type.
* The scalar type is a parameter `α`.  The exact-arithmetic claims use `ℚ`
  (every float that appears in a claim is exactly representable); the
  IEEE-propagation claims use `NFloat`, an extension of `ℚ` with `inf`,
  `-inf` and `nan` whose arithmetic follows IEEE-754 rules on the modelled
  cases (zeros are unsigned).
* Real-valued primitives that have no exact rational counterpart
  (`x ** y` for a general base, `log` of a positive value) are passed in as
  explicit function parameters (`hp`, `lg`): every theorem about them is
  quantified over the parameter, so nothing depends on a particular
  floating-point approximation.
* Python-level dynamic typing and exceptions (needed for the dispatch
  functions of `basic_math.py`) are modelled by `PyObj` / `PyErr` / `Except`.
-/

namespace Chainer

/-- A numpy-style 1-D array of length `n` with scalar type `α`. -/
abbrev Vec (n : ℕ) (α : Type) := Fin n → α

/-- A numpy-style 2-D array (matrix) of rationals, shape `(m, n)`. -/
abbrev Mat (m n : ℕ) := Fin m → Fin n → ℚ

/-- Scalar model of an IEEE floating-point value: a finite (exactly
representable) rational, positive/negative infinity, or NaN.  Zero is
unsigned in this model. -/
inductive NFloat where
  | fin (q : ℚ)
  | inf
  | ninf
  | nan
deriving DecidableEq

/-- IEEE negation on `NFloat`. -/
def npNeg : NFloat → NFloat
  | .fin q => .fin (-q)
  | .inf => .ninf
  | .ninf => .inf
  | .nan => .nan

/-- IEEE multiplication on `NFloat` (infinity times zero is NaN). -/
def npMul : NFloat → NFloat → NFloat
  | .nan, _ => .nan
  | _, .nan => .nan
  | .fin a, .fin b => .fin (a * b)
  | .inf, .fin b => if b = 0 then .nan else if 0 < b then .inf else .ninf
  | .fin a, .inf => if a = 0 then .nan else if 0 < a then .inf else .ninf
  | .ninf, .fin b => if b = 0 then .nan else if 0 < b then .ninf else .inf
  | .fin a, .ninf => if a = 0 then .nan else if 0 < a then .ninf else .inf
  | .inf, .inf => .inf
  | .inf, .ninf => .ninf
  | .ninf, .inf => .ninf
  | .ninf, .ninf => .inf

/-- IEEE division on `NFloat`: a nonzero finite value divided by (unsigned)
zero is `±inf`, `0 / 0` is NaN, `±inf / 0 = ±inf`, finite over infinite is
zero, infinite over infinite is NaN. -/
def npDiv : NFloat → NFloat → NFloat
  | .nan, _ => .nan
  | _, .nan => .nan
  | .fin a, .fin b =>
      if b = 0 then (if a = 0 then .nan else if 0 < a then .inf else .ninf)
      else .fin (a / b)
  | .inf, .fin b => if 0 ≤ b then .inf else .ninf
  | .ninf, .fin b => if 0 ≤ b then .ninf else .inf
  | .fin _, .inf => .fin 0
  | .fin _, .ninf => .fin 0
  | _, _ => .nan

instance : Neg NFloat := ⟨npNeg⟩
instance : Mul NFloat := ⟨npMul⟩
instance : Div NFloat := ⟨npDiv⟩

/-- IEEE natural logarithm on `NFloat`: `log 0 = -inf`, the log of a negative
value is NaN, `log inf = inf`.  The log of a positive finite value is not in
general rational, so it is supplied by the oracle `f`; no claim depends on
its value. -/
def npLog (f : ℚ → ℚ) : NFloat → NFloat
  | .fin q => if q = 0 then .ninf else if q < 0 then .nan else .fin (f q)
  | .inf => .inf
  | .ninf => .nan
  | .nan => .nan

/-- IEEE power on `NFloat`, pinned on a finite zero base (`0 ** 0 = 1`,
`0 ** positive = 0`, `0 ** negative = inf`, as numpy float arithmetic
computes).  All other cases are supplied by the oracle `f`, since a general
real power is not rational; no claim depends on them. -/
def npPow (f : NFloat → NFloat → NFloat) : NFloat → NFloat → NFloat :=
  fun x y =>
    match x, y with
    | .fin a, .fin b =>
        if a = 0 then (if b = 0 then .fin 1 else if 0 < b then .fin 0 else .inf)
        else f x y
    | x, y => f x y

/-- A constant operand of a constant-specialised operation: either a plain
scalar number or a broadcastable array (`self.value` in the source may be
either). -/
inductive PyConst (n : ℕ) (α : Type) where
  | num (c : α)
  | arr (a : Vec n α)
deriving DecidableEq

/-- numpy broadcasting of a constant operand against a length-`n` array:
a scalar is repeated, an array is used elementwise. -/
def PyConst.toVec {n : ℕ} {α : Type} : PyConst n α → Vec n α
  | .num c => fun _ => c
  | .arr a => a

variable {n : ℕ} {α : Type}

/-- `Neg.forward` (basic_math.py): `return -x[0],`. -/
def Neg.forward [Neg α] (x : Vec n α) : Vec n α := -x

/-- `Neg.backward` (basic_math.py): `return -gy[0],`. -/
def Neg.backward [Neg α] (gy : Vec n α) : Vec n α := -gy

/-- `Add.forward` (basic_math.py): `return x[0] + x[1],`. -/
def Add.forward [Add α] (x0 x1 : Vec n α) : Vec n α := x0 + x1

/-- `Add.backward` (basic_math.py): `return gy[0], gy[0]`. -/
def Add.backward (gy : Vec n α) : Vec n α × Vec n α := (gy, gy)

/-- `AddConstant.forward` (basic_math.py): `return x[0] + self.value,`. -/
def AddConstant.forward [Add α] (value : PyConst n α) (x : Vec n α) : Vec n α :=
  x + value.toVec

/-- `AddConstant.backward` (basic_math.py): `return gy[0],`. -/
def AddConstant.backward (gy : Vec n α) : Vec n α := gy

/-- `Sub.forward` (basic_math.py): `return x[0] - x[1],`. -/
def Sub.forward [Sub α] (x0 x1 : Vec n α) : Vec n α := x0 - x1

/-- `Sub.backward` (basic_math.py): `return gy[0], -gy[0]`. -/
def Sub.backward [Neg α] (gy : Vec n α) : Vec n α × Vec n α := (gy, -gy)

/-- `SubFromConstant.forward` (basic_math.py): `return self.value - x[0],`. -/
def SubFromConstant.forward [Sub α] (value : PyConst n α) (x : Vec n α) : Vec n α :=
  value.toVec - x

/-- `SubFromConstant.backward` (basic_math.py): `return -gy[0],`. -/
def SubFromConstant.backward [Neg α] (gy : Vec n α) : Vec n α := -gy

/-- `Mul.forward` (basic_math.py): `return x[0] * x[1],`. -/
def Mul.forward [Mul α] (x0 x1 : Vec n α) : Vec n α := x0 * x1

/-- `Mul.backward_cpu` (basic_math.py): `return gy[0] * x[1], gy[0] * x[0]`. -/
def Mul.backward_cpu [Mul α] (x0 x1 gy : Vec n α) : Vec n α × Vec n α :=
  (gy * x1, gy * x0)

/-- `Mul.backward_gpu` (basic_math.py), kernel `mul_bwd`:
`gx0[i] = gy[i] * x1[i]; gx1[i] = gy[i] * x0[i]`.
Modelled from the spec: `cuda.elementwise` (in `chainer/cuda.py`, not under
src/) launches the kernel body once per element index `i` (spec §4.6, §6);
the kernel body itself is taken from the source string. -/
def Mul.backward_gpu [Mul α] (x0 x1 gy : Vec n α) : Vec n α × Vec n α :=
  (fun i => gy i * x1 i, fun i => gy i * x0 i)

/-- `MulConstant.forward` (basic_math.py): `return self.value * x[0],`. -/
def MulConstant.forward [Mul α] (value : PyConst n α) (x : Vec n α) : Vec n α :=
  value.toVec * x

/-- `MulConstant.backward` (basic_math.py): `return self.value * gy[0],`. -/
def MulConstant.backward [Mul α] (value : PyConst n α) (gy : Vec n α) : Vec n α :=
  value.toVec * gy

/-- `Div.forward` (basic_math.py): `return x[0] / x[1],`. -/
def Div.forward [Div α] (x0 x1 : Vec n α) : Vec n α := x0 / x1

/-- `Div.backward_cpu` (basic_math.py):
`gx0 = gy[0] / x[1]; return gx0, -gx0 * x[0] / x[1]`. -/
def Div.backward_cpu [Div α] [Mul α] [Neg α] (x0 x1 gy : Vec n α) :
    Vec n α × Vec n α :=
  let gx0 := gy / x1
  (gx0, -gx0 * x0 / x1)

/-- `Div.backward_gpu` (basic_math.py), kernel `div_bwd`:
`gx0[i] = gy[i] / x1[i]; gx1[i] = -gx0[i] * x0[i] / x1[i]`.
Modelled from the spec: elementwise kernel launch as for `Mul.backward_gpu`. -/
def Div.backward_gpu [Div α] [Mul α] [Neg α] (x0 x1 gy : Vec n α) :
    Vec n α × Vec n α :=
  let gx0 : Vec n α := fun i => gy i / x1 i
  (gx0, fun i => -gx0 i * x0 i / x1 i)

/-- `DivFromConstant.forward` (basic_math.py): `return self.value / x[0],`. -/
def DivFromConstant.forward [Div α] (value : PyConst n α) (x : Vec n α) : Vec n α :=
  value.toVec / x

/-- `DivFromConstant.backward_cpu` (basic_math.py):
`return -self.value * gy[0] / (x[0] ** 2),` (numpy broadcasting). -/
def DivFromConstant.backward_cpu [Monoid α] [Div α] [Neg α]
    (value : PyConst n α) (x gy : Vec n α) : Vec n α :=
  fun i => -value.toVec i * gy i / (x i ^ (2 : ℕ))

/-- `DivFromConstant.backward_gpu` (basic_math.py), kernel
`div_from_const_bwd`, with the scalar-constant and array-constant branches
of the source (`gx[i] = -value * gy[i] / (x[i] * x[i])` resp.
`gx[i] = -value[i] * gy[i] / (x[i] * x[i])`).
Modelled from the spec: elementwise kernel launch as above. -/
def DivFromConstant.backward_gpu [Mul α] [Div α] [Neg α]
    (value : PyConst n α) (x gy : Vec n α) : Vec n α :=
  match value with
  | .num c => fun i => -c * gy i / (x i * x i)
  | .arr a => fun i => -a i * gy i / (x i * x i)

/-- `PowVarVar.forward_cpu` (basic_math.py): `self.y = x[0] ** x[1]`; the
returned value is also the cached `self.y`.  `hp` is the scalar power
function of the dtype. -/
def PowVarVar.forward_cpu (hp : α → α → α) (x0 x1 : Vec n α) : Vec n α :=
  fun i => hp (x0 i) (x1 i)

/-- `PowVarVar.forward_gpu` (basic_math.py): `return x[0] ** x[1],`
(no caching on the accelerator path). -/
def PowVarVar.forward_gpu (hp : α → α → α) (x0 x1 : Vec n α) : Vec n α :=
  fun i => hp (x0 i) (x1 i)

/-- `PowVarVar.backward_cpu` (basic_math.py):
`gx0 = x[1] * (x[0] ** (x[1] - 1)) * gy[0];
 gx1 = numpy.log(x[0]) * self.y * gy[0]`.
`y` is the cached forward output `self.y`; `lg` is the scalar log. -/
def PowVarVar.backward_cpu [Mul α] [Sub α] [One α] (hp : α → α → α)
    (lg : α → α) (x0 x1 y gy : Vec n α) : Vec n α × Vec n α :=
  (fun i => x1 i * hp (x0 i) (x1 i - 1) * gy i,
   fun i => lg (x0 i) * y i * gy i)

/-- `PowVarVar.backward_gpu` (basic_math.py), kernel `pow_var_var_bwd`:
`gx0[i] = x1[i] * __powf(x0[i], x1[i] - 1) * gy[i];
 gx1[i] = __logf(x0[i]) * __powf(x0[i], x1[i]) * gy[i]`.
Modelled from the spec: elementwise kernel launch as above; the device
intrinsics `__powf`/`__logf` are modelled by the same abstract `hp`/`lg`
(the spec's "identical up to floating-point rounding" contract, §4.6). -/
def PowVarVar.backward_gpu [Mul α] [Sub α] [One α] (hp : α → α → α)
    (lg : α → α) (x0 x1 gy : Vec n α) : Vec n α × Vec n α :=
  (fun i => x1 i * hp (x0 i) (x1 i - 1) * gy i,
   fun i => lg (x0 i) * hp (x0 i) (x1 i) * gy i)

/-- `PowVarConst.forward` (basic_math.py): `return x[0] ** self.value,`
(numpy broadcasting of the constant). -/
def PowVarConst.forward (hp : α → α → α) (value : PyConst n α)
    (x : Vec n α) : Vec n α :=
  fun i => hp (x i) (value.toVec i)

/-- `PowVarConst.backward_cpu` (basic_math.py):
`return self.value * (x[0] ** (self.value - 1)) * gy[0],`. -/
def PowVarConst.backward_cpu [Mul α] [Sub α] [One α] (hp : α → α → α)
    (value : PyConst n α) (x gy : Vec n α) : Vec n α :=
  fun i => value.toVec i * hp (x i) (value.toVec i - 1) * gy i

/-- `PowVarConst.backward_gpu` (basic_math.py), kernel `pow_var_const_bwd`,
scalar and array constant branches
(`gx[i] = value * __powf(x[i], value - 1) * gy[i]` resp.
`gx[i] = value[i] * __powf(x[i], value[i] - 1) * gy[i]`).
Modelled from the spec: elementwise kernel launch as above. -/
def PowVarConst.backward_gpu [Mul α] [Sub α] [One α] (hp : α → α → α)
    (value : PyConst n α) (x gy : Vec n α) : Vec n α :=
  match value with
  | .num c => fun i => c * hp (x i) (c - 1) * gy i
  | .arr a => fun i => a i * hp (x i) (a i - 1) * gy i

/-- `PowConstVar.forward_cpu` (basic_math.py): `self.y = self.value ** x[0]`;
the returned value is also the cached `self.y`. -/
def PowConstVar.forward_cpu (hp : α → α → α) (value : PyConst n α)
    (x : Vec n α) : Vec n α :=
  fun i => hp (value.toVec i) (x i)

/-- `PowConstVar.forward_gpu` (basic_math.py), kernel `pow_const_var_fwd`,
scalar and array constant branches (`y[i] = __powf(value, x[i])` resp.
`y[i] = __powf(value[i], x[i])`).
Modelled from the spec: elementwise kernel launch as above. -/
def PowConstVar.forward_gpu (hp : α → α → α) (value : PyConst n α)
    (x : Vec n α) : Vec n α :=
  match value with
  | .num c => fun i => hp c (x i)
  | .arr a => fun i => hp (a i) (x i)

/-- `PowConstVar.backward_cpu` (basic_math.py):
`return numpy.log(self.value) * self.y * gy[0],`; `y` is the cached forward
output. -/
def PowConstVar.backward_cpu [Mul α] (lg : α → α) (value : PyConst n α)
    (y gy : Vec n α) : Vec n α :=
  fun i => lg (value.toVec i) * y i * gy i

/-- `PowConstVar.backward_gpu` (basic_math.py), kernel `pow_const_var_bwd`:
scalar branch precomputes `logv = math.log(self.value)` on the host and uses
`gx[i] = logv * __powf(value, x[i]) * gy[i]`; array branch uses
`gx[i] = __logf(value[i]) * __powf(value[i], x[i]) * gy[i]`.
Modelled from the spec: elementwise kernel launch as above. -/
def PowConstVar.backward_gpu [Mul α] (hp : α → α → α) (lg : α → α)
    (value : PyConst n α) (x gy : Vec n α) : Vec n α :=
  match value with
  | .num c =>
      let logv := lg c
      fun i => logv * hp c (x i) * gy i
  | .arr a => fun i => lg (a i) * hp (a i) (x i) * gy i

/-- `Exp.forward_cpu` (basic_math.py): `self.y = numpy.exp(x[0])`; the
returned value is also the cached `self.y`.  `ex` is the scalar exp. -/
def Exp.forward_cpu (ex : α → α) (x : Vec n α) : Vec n α :=
  fun i => ex (x i)

/-- `Exp.backward` (basic_math.py): `return self.y * gy[0],`. -/
def Exp.backward [Mul α] (y gy : Vec n α) : Vec n α := y * gy

/-- `Log.forward_cpu` (basic_math.py): `return numpy.log(x[0]),`.
`lg` is the scalar log of the dtype. -/
def Log.forward_cpu (lg : α → α) (x : Vec n α) : Vec n α :=
  fun i => lg (x i)

/-- `Log.backward` (basic_math.py): `return gy[0] / x[0],`. -/
def Log.backward [Div α] (x gy : Vec n α) : Vec n α := gy / x

/-!
### Dispatch layer

The dispatch functions of `basic_math.py` (`add`, `sub`, `rsub`, `mul`,
`div`, `rdiv`, `pow`, `rpow`) inspect the right-hand operand with
`isinstance(rhs, variable.Variable)` and otherwise hand it to a
constant-specialised operation.  The operand is an arbitrary Python object.
The exact-arithmetic scalar type `ℚ` is used here.
-/

/-- A Python object handed to a dispatch function: a graph `Variable`
wrapping an array, a plain Python number, a numpy array constant, or any
other (non-numeric) object such as a string. -/
inductive PyObj (n : ℕ) where
  | var (v : Vec n ℚ)
  | num (c : ℚ)
  | arr (a : Vec n ℚ)
  | other (s : String)
deriving DecidableEq

/-- Python exception classes raised by the modelled code paths. -/
inductive PyErr where
  | typeError
  | zeroDivisionError
deriving DecidableEq

/-- Python unary minus `-rhs` applied to a non-`Variable` operand, as done
eagerly by the `sub` dispatch function: numbers and arrays negate, any
other object raises `TypeError` (the `Variable` case is not reached from
`sub`, which takes the `isinstance` branch first). -/
def pyNeg {n : ℕ} : PyObj n → Except PyErr (PyObj n)
  | .num c => .ok (.num (-c))
  | .arr a => .ok (.arr (-a))
  | _ => .error .typeError

/-- Python `1. / rhs` applied to a non-`Variable` operand, as done eagerly
by the `div` dispatch function: a plain zero number raises
`ZeroDivisionError`, a nonzero number yields its reciprocal, a numpy array
is divided elementwise without raising, and any other object raises
`TypeError`.  (Over `ℚ` the model cannot represent the `inf` numpy produces
at a zero array entry; no claim relies on that path.) -/
def pyRecip {n : ℕ} : PyObj n → Except PyErr (PyObj n)
  | .num c => if c = 0 then .error .zeroDivisionError else .ok (.num (1 / c))
  | .arr a => .ok (.arr (fun i => 1 / a i))
  | _ => .error .typeError

/-- The stored constant of a constant-specialised operation, as seen by the
numpy arithmetic inside `forward`/`backward`: numbers and arrays broadcast,
any other object makes the arithmetic raise `TypeError` (only at that point
— constructing the operation instance never checks the type). -/
def constOf {n : ℕ} : PyObj n → Except PyErr (PyConst n ℚ)
  | .num c => .ok (.num c)
  | .arr a => .ok (.arr a)
  | _ => .error .typeError

/-- An operation instance of `basic_math.py` applied to its operands, as
produced by a dispatch function.  Constructor names mirror the source
classes; constant-specialised constructors carry the stored `value`
(an arbitrary Python object — construction performs no type check). -/
inductive Applied (n : ℕ) where
  | Neg (x : Vec n ℚ)
  | Add (x0 x1 : Vec n ℚ)
  | AddConstant (value : PyObj n) (x : Vec n ℚ)
  | Sub (x0 x1 : Vec n ℚ)
  | SubFromConstant (value : PyObj n) (x : Vec n ℚ)
  | Mul (x0 x1 : Vec n ℚ)
  | MulConstant (value : PyObj n) (x : Vec n ℚ)
  | Div (x0 x1 : Vec n ℚ)
  | DivFromConstant (value : PyObj n) (x : Vec n ℚ)
  | PowVarVar (x0 x1 : Vec n ℚ)
  | PowVarConst (value : PyObj n) (x : Vec n ℚ)
  | PowConstVar (value : PyObj n) (x : Vec n ℚ)
deriving DecidableEq

/-- Running `forward` of an applied operation (CPU path), with `hp` the
scalar power function.  Modelled from the spec: §6 — invoking a constructed
operation instance runs `forward` on the underlying tensors
(`chainer/function.py` is not under src/). -/
def Applied.runForward (hp : ℚ → ℚ → ℚ) {n : ℕ} :
    Applied n → Except PyErr (Vec n ℚ)
  | .Neg x => .ok (Neg.forward x)
  | .Add x0 x1 => .ok (Add.forward x0 x1)
  | .AddConstant v x => (constOf v).map (fun c => AddConstant.forward c x)
  | .Sub x0 x1 => .ok (Sub.forward x0 x1)
  | .SubFromConstant v x => (constOf v).map (fun c => SubFromConstant.forward c x)
  | .Mul x0 x1 => .ok (Mul.forward x0 x1)
  | .MulConstant v x => (constOf v).map (fun c => MulConstant.forward c x)
  | .Div x0 x1 => .ok (Div.forward x0 x1)
  | .DivFromConstant v x => (constOf v).map (fun c => DivFromConstant.forward c x)
  | .PowVarVar x0 x1 => .ok (PowVarVar.forward_cpu hp x0 x1)
  | .PowVarConst v x => (constOf v).map (fun c => PowVarConst.forward hp c x)
  | .PowConstVar v x => (constOf v).map (fun c => PowConstVar.forward_cpu hp c x)

/-- `neg(x)` (basic_math.py): `return Neg()(x)`. -/
def neg {n : ℕ} (x : Vec n ℚ) : Applied n := .Neg x

/-- `add(lhs, rhs)` (basic_math.py):
`if isinstance(rhs, variable.Variable): return Add()(lhs, rhs)`
else `return AddConstant(rhs)(lhs)` — no type check on the constant. -/
def add {n : ℕ} (lhs : Vec n ℚ) (rhs : PyObj n) : Except PyErr (Applied n) :=
  match rhs with
  | .var v => .ok (.Add lhs v)
  | r => .ok (.AddConstant r lhs)

/-- `sub(lhs, rhs)` (basic_math.py): variable case `Sub()(lhs, rhs)`; else
`AddConstant(-rhs)(lhs)` — the negation is computed eagerly in Python at
dispatch time. -/
def sub {n : ℕ} (lhs : Vec n ℚ) (rhs : PyObj n) : Except PyErr (Applied n) :=
  match rhs with
  | .var v => .ok (.Sub lhs v)
  | r =>
    match pyNeg r with
    | .ok v => .ok (.AddConstant v lhs)
    | .error e => .error e

/-- `rsub(lhs, rhs)` (basic_math.py): variable case `Sub()(rhs, lhs)`
(operands swapped); else `SubFromConstant(rhs)(lhs)`. -/
def rsub {n : ℕ} (lhs : Vec n ℚ) (rhs : PyObj n) : Except PyErr (Applied n) :=
  match rhs with
  | .var v => .ok (.Sub v lhs)
  | r => .ok (.SubFromConstant r lhs)

/-- `mul(lhs, rhs)` (basic_math.py): variable case `Mul()(lhs, rhs)`; else
`MulConstant(rhs)(lhs)` — no type check on the constant. -/
def mul {n : ℕ} (lhs : Vec n ℚ) (rhs : PyObj n) : Except PyErr (Applied n) :=
  match rhs with
  | .var v => .ok (.Mul lhs v)
  | r => .ok (.MulConstant r lhs)

/-- `div(lhs, rhs)` (basic_math.py): variable case `Div()(lhs, rhs)`; else
`MulConstant(1. / rhs)(lhs)` — the reciprocal is computed eagerly in Python
at dispatch time. -/
def div {n : ℕ} (lhs : Vec n ℚ) (rhs : PyObj n) : Except PyErr (Applied n) :=
  match rhs with
  | .var v => .ok (.Div lhs v)
  | r =>
    match pyRecip r with
    | .ok q => .ok (.MulConstant q lhs)
    | .error e => .error e

/-- `rdiv(lhs, rhs)` (basic_math.py): variable case `Div()(rhs, lhs)`
(operands swapped); else `DivFromConstant(rhs)(lhs)`. -/
def rdiv {n : ℕ} (lhs : Vec n ℚ) (rhs : PyObj n) : Except PyErr (Applied n) :=
  match rhs with
  | .var v => .ok (.Div v lhs)
  | r => .ok (.DivFromConstant r lhs)

/-- `pow(lhs, rhs)` (basic_math.py): variable case `PowVarVar()(lhs, rhs)`;
else `PowVarConst(rhs)(lhs)` — no type check on the constant. -/
def pow {n : ℕ} (lhs : Vec n ℚ) (rhs : PyObj n) : Except PyErr (Applied n) :=
  match rhs with
  | .var v => .ok (.PowVarVar lhs v)
  | r => .ok (.PowVarConst r lhs)

/-- `rpow(lhs, rhs)` (basic_math.py): variable case `PowVarVar()(rhs, lhs)`
(operands swapped); else `PowConstVar(rhs)(lhs)` — no type check on the
constant. -/
def rpow {n : ℕ} (lhs : Vec n ℚ) (rhs : PyObj n) : Except PyErr (Applied n) :=
  match rhs with
  | .var v => .ok (.PowVarVar v lhs)
  | r => .ok (.PowConstVar r lhs)

/-- The arithmetic operator slots of `variable.Variable`, as bound by the
installer.  Reflected slots have the same type as the direct ones: Python
invokes `x.__radd__(c)` with the same arguments as `x.__add__(c)`. -/
structure VariableArithmetics (n : ℕ) where
  negSlot : Vec n ℚ → Applied n
  addSlot : Vec n ℚ → PyObj n → Except PyErr (Applied n)
  raddSlot : Vec n ℚ → PyObj n → Except PyErr (Applied n)
  subSlot : Vec n ℚ → PyObj n → Except PyErr (Applied n)
  rsubSlot : Vec n ℚ → PyObj n → Except PyErr (Applied n)
  mulSlot : Vec n ℚ → PyObj n → Except PyErr (Applied n)
  rmulSlot : Vec n ℚ → PyObj n → Except PyErr (Applied n)
  divSlot : Vec n ℚ → PyObj n → Except PyErr (Applied n)
  truedivSlot : Vec n ℚ → PyObj n → Except PyErr (Applied n)
  rdivSlot : Vec n ℚ → PyObj n → Except PyErr (Applied n)
  rtruedivSlot : Vec n ℚ → PyObj n → Except PyErr (Applied n)
  powSlot : Vec n ℚ → PyObj n → Except PyErr (Applied n)
  rpowSlot : Vec n ℚ → PyObj n → Except PyErr (Applied n)

/-- `install_variable_arithmetics()` (basic_math.py): binds each operator
slot of `variable.Variable` to the corresponding dispatch function; the
reflected `__radd__`/`__rmul__` slots are bound to the same `add`/`mul`
dispatch functions as the direct slots. -/
def install_variable_arithmetics (n : ℕ) : VariableArithmetics n :=
  { negSlot := neg
    addSlot := add
    raddSlot := add
    subSlot := sub
    rsubSlot := rsub
    mulSlot := mul
    rmulSlot := mul
    divSlot := div
    truedivSlot := div
    rdivSlot := rdiv
    rtruedivSlot := rdiv
    powSlot := pow
    rpowSlot := rpow }

/-!
### Affine (Linear) transform, `linear.py`

Matrices are `Mat m n = Fin m → Fin n → ℚ` with pointwise addition from the
Pi instances (numpy `+=` on same-shape arrays).
-/

/-- numpy `x.dot(y)` on 2-D arrays. -/
def matMul {m k n : ℕ} (A : Mat m k) (B : Mat k n) : Mat m n :=
  fun i j => ∑ t, A i t * B t j

/-- numpy `x.T` on a 2-D array. -/
def matT {m n : ℕ} (A : Mat m n) : Mat n m := fun i j => A j i

/-- numpy `gy.sum(0)`: column sums of a 2-D array. -/
def colSum {m n : ℕ} (A : Mat m n) : Fin n → ℚ := fun j => ∑ i, A i j

/-- `_as_mat` (linear.py) applied to a 3-D array of shape `(bt, d1, d2)`:
`x.reshape(x.shape[0], x.size / x.shape[0])` keeps the leading (batch)
dimension and flattens the rest in C order, so flat feature index `j`
addresses element `(j / d2, j % d2)`. -/
def as_mat {bt d1 d2 : ℕ} (x : Fin bt → Fin d1 → Fin d2 → ℚ) :
    Mat bt (d1 * d2) :=
  fun r j =>
    have hj := j.isLt
    have h2 : 0 < d2 := by
      rcases Nat.eq_zero_or_pos d2 with h | h
      · subst h; simp at hj
      · exact h
    x r ⟨j.val / d2, by
        exact (Nat.div_lt_iff_lt_mul h2).mpr hj⟩
      ⟨j.val % d2, Nat.mod_lt _ h2⟩

/-- numpy `reshape` back to `(bt, d1, d2)` of a C-ordered `(bt, d1*d2)`
matrix: element `(i, j)` of a row is flat feature index `i * d2 + j`. -/
def unflatten {bt d1 d2 : ℕ} (M : Mat bt (d1 * d2)) :
    Fin bt → Fin d1 → Fin d2 → ℚ :=
  fun r i j =>
    M r ⟨i.val * d2 + j.val, by
      calc i.val * d2 + j.val < i.val * d2 + d2 :=
            Nat.add_lt_add_left j.isLt _
        _ = (i.val + 1) * d2 := (Nat.succ_mul i.val d2).symm
        _ ≤ d1 * d2 := Nat.mul_le_mul_right d2 (Nat.succ_le_of_lt i.isLt)⟩

/-- The state of a `Linear` instance (linear.py): weight `W` of shape
`(out_size, in_size)`, gradient accumulator `gW` of the same shape, and the
optional bias `b` and its accumulator `gb` of size `out_size`. -/
structure Linear (inSize outSize : ℕ) where
  W : Mat outSize inSize
  gW : Mat outSize inSize
  b : Option (Fin outSize → ℚ)
  gb : Option (Fin outSize → ℚ)

/-- `Linear.__init__` (linear.py).  `W` is drawn from a Gaussian and `gW`
(/`gb`) are allocated with `numpy.empty_like`, i.e. with unspecified
contents; both are modelled by arbitrary parameters `W0`, `gW0`, `gb0`.
`gW` is created unconditionally; only under `nobias` are `b` and `gb` set
to `None`.  Otherwise `b = numpy.repeat(bias, out_size)` is the constant
fill. -/
def Linear.init {inSize outSize : ℕ} (W0 gW0 : Mat outSize inSize)
    (gb0 : Fin outSize → ℚ) (bias : ℚ) (nobias : Bool) :
    Linear inSize outSize :=
  if nobias then
    { W := W0, gW := gW0, b := none, gb := none }
  else
    { W := W0, gW := gW0, b := some (fun _ => bias), gb := some gb0 }

/-- `Linear.parameter_names` (linear.py): `('W',)` when `b is None`, else
`('W', 'b')`. -/
def Linear.parameter_names {i o : ℕ} (l : Linear i o) : List String :=
  match l.b with
  | none => ["W"]
  | some _ => ["W", "b"]

/-- `Linear.gradient_names` (linear.py): `('gW',)` when `gb is None`, else
`('gW', 'gb')`. -/
def Linear.gradient_names {i o : ℕ} (l : Linear i o) : List String :=
  match l.gb with
  | none => ["gW"]
  | some _ => ["gW", "gb"]

/-- `Linear.forward_cpu` (linear.py) on an already-2-D input, for which
`_as_mat` is the identity: `Wx = x.dot(self.W.T)`; `if self.b is not None:
Wx += self.b` (broadcast over rows). -/
def Linear.forward_cpu {i o bt : ℕ} (l : Linear i o) (x : Mat bt i) :
    Mat bt o :=
  let Wx := matMul x (matT l.W)
  match l.b with
  | none => Wx
  | some b => fun r c => Wx r c + b c

/-- `Linear.forward_gpu` (linear.py) on an already-2-D input:
`culinalg.dot(x, self.W, transb='T')` (modelled from the spec: the external
BLAS call computes `x · Wᵀ`, §6), then kernel `linear_bias`:
`y[i] += b[i % n_channel]` over the row-major flattening of `y`
(`chainer/cuda.py`'s `cuda.elementwise` launcher modelled from spec §6). -/
def Linear.forward_gpu {i o bt : ℕ} (l : Linear i o) (x : Mat bt i) :
    Mat bt o :=
  let y := matMul x (matT l.W)
  match l.b with
  | none => y
  | some b =>
      fun r c =>
        y r c + b ⟨(r.val * o + c.val) % o, Nat.mod_lt _ c.pos⟩

/-- The shared 2-D core of `Linear.backward_cpu` (linear.py), acting on the
flattened input `xm`: `self.gW += gy.T.dot(xm)`; `if self.gb is not None:
self.gb += gy.sum(0)`; the 2-D input gradient is `gy.dot(self.W)`.  The
mutated instance is returned alongside the gradient. -/
def Linear.backward_core {i o bt : ℕ} (l : Linear i o) (xm : Mat bt i)
    (gy : Mat bt o) : Linear i o × Mat bt i :=
  ({ l with
      gW := l.gW + matMul (matT gy) xm
      gb := l.gb.map (fun g => g + colSum gy) },
   matMul gy l.W)

/-- `Linear.backward_cpu` (linear.py) on a 2-D input, for which `_as_mat`
and the final `reshape(x[0].shape)` are identities. -/
def Linear.backward_cpu {i o bt : ℕ} (l : Linear i o) (x : Mat bt i)
    (gy : Mat bt o) : Linear i o × Mat bt i :=
  l.backward_core x gy

/-- `Linear.backward_gpu` (linear.py) on a 2-D input:
`culinalg.add_dot(gy, xm, self.gW, transa='T')` accumulates `gyᵀ · xm` into
`gW`, `self.gb += cumisc.sum(gy, 0)` adds the column sums, and
`culinalg.dot(gy, self.W)` is the input gradient (external BLAS/reduction
calls modelled from spec §6 as the corresponding exact matrix operations). -/
def Linear.backward_gpu {i o bt : ℕ} (l : Linear i o) (x : Mat bt i)
    (gy : Mat bt o) : Linear i o × Mat bt i :=
  ({ l with
      gW := l.gW + matMul (matT gy) x
      gb := l.gb.map (fun g => g + colSum gy) },
   matMul gy l.W)

/-- `Linear.forward_cpu` (linear.py) on a 3-D input of shape
`(bt, d1, d2)`: `x = _as_mat(x[0])` flattens the trailing dimensions, then
the 2-D computation runs. -/
def Linear.forward3 {i1 i2 o bt : ℕ} (l : Linear (i1 * i2) o)
    (x : Fin bt → Fin i1 → Fin i2 → ℚ) : Mat bt o :=
  l.forward_cpu (as_mat x)

/-- `Linear.backward_cpu` (linear.py) on a 3-D input: the input is
flattened with `_as_mat` and the returned gradient is
`gy.dot(self.W).reshape(x[0].shape)`. -/
def Linear.backward3 {i1 i2 o bt : ℕ} (l : Linear (i1 * i2) o)
    (x : Fin bt → Fin i1 → Fin i2 → ℚ) (gy : Mat bt o) :
    Linear (i1 * i2) o × (Fin bt → Fin i1 → Fin i2 → ℚ) :=
  let p := l.backward_core (as_mat x) gy
  (p.1, unflatten p.2)

/-- A sequence of `backward_cpu` invocations on the same instance, threading
the mutated state: the training loop of the spec's accumulation window. -/
def Linear.backwardFold {i o bt : ℕ} (l : Linear i o)
    (calls : List (Mat bt i × Mat bt o)) : Linear i o :=
  calls.foldl (fun s p => (s.backward_cpu p.1 p.2).1) l

/-!
## Theorems
-/

theorem backwardFold_gW {i o bt : ℕ} (calls : List (Mat bt i × Mat bt o)) :
    ∀ l : Linear i o,
      (l.backwardFold calls).gW
        = l.gW + (calls.map (fun p => matMul (matT p.2) p.1)).sum := by
  induction calls with
  | nil => intro l; simp [Linear.backwardFold]
  | cons p cs ih =>
      intro l
      have hstep : l.backwardFold (p :: cs)
          = ((l.backward_cpu p.1 p.2).1).backwardFold cs := rfl
      rw [hstep, ih]
      simp [Linear.backward_cpu, Linear.backward_core, add_assoc]

theorem backwardFold_gb {i o bt : ℕ} (calls : List (Mat bt i × Mat bt o)) :
    ∀ l : Linear i o,
      (l.backwardFold calls).gb
        = l.gb.map (fun g => g + (calls.map (fun p => colSum p.2)).sum) := by
  induction calls with
  | nil =>
      intro l
      cases hgb : l.gb <;> simp [Linear.backwardFold, hgb]
  | cons p cs ih =>
      intro l
      have hstep : l.backwardFold (p :: cs)
          = ((l.backward_cpu p.1 p.2).1).backwardFold cs := rfl
      rw [hstep, ih]
      simp only [Linear.backward_cpu, Linear.backward_core, Option.map_map]
      congr 1
      funext g
      simp [Function.comp, add_assoc]

theorem backwardFold_W_b {i o bt : ℕ} (calls : List (Mat bt i × Mat bt o)) :
    ∀ l : Linear i o,
      (l.backwardFold calls).W = l.W ∧ (l.backwardFold calls).b = l.b := by
  induction calls with
  | nil => intro l; exact ⟨rfl, rfl⟩
  | cons p cs ih =>
      intro l
      have hstep : l.backwardFold (p :: cs)
          = ((l.backward_cpu p.1 p.2).1).backwardFold cs := rfl
      rw [hstep]
      exact ih _

/-- Claim C1: invoking `backward` twice in succession on the same `Linear`
instance leaves `gW` (and `gb`, when present) equal to their prior value
plus the sum of the two contributions (`gyᵀ·X` and the column sums of
`gy`), and each call's input gradient is `gy·W`, independent of the
accumulator contents. -/
theorem C1_linear_backward_accumulation {i o bt1 bt2 : ℕ} (l : Linear i o)
    (x1 : Mat bt1 i) (gy1 : Mat bt1 o) (x2 : Mat bt2 i) (gy2 : Mat bt2 o)
    (gW' : Mat o i) (gb' : Option (Fin o → ℚ)) :
    ((l.backward_cpu x1 gy1).1.backward_cpu x2 gy2).1.gW
        = l.gW + matMul (matT gy1) x1 + matMul (matT gy2) x2
    ∧ ((l.backward_cpu x1 gy1).1.backward_cpu x2 gy2).1.gb
        = l.gb.map (fun g => g + colSum gy1 + colSum gy2)
    ∧ (l.backward_cpu x1 gy1).2 = matMul gy1 l.W
    ∧ ((l.backward_cpu x1 gy1).1.backward_cpu x2 gy2).2 = matMul gy2 l.W
    ∧ (({ l with gW := gW', gb := gb' } : Linear i o).backward_cpu x1 gy1).2
        = (l.backward_cpu x1 gy1).2 := by
  refine ⟨rfl, ?_, rfl, rfl, rfl⟩
  show (l.gb.map (fun g => g + colSum gy1)).map (fun g => g + colSum gy2)
      = l.gb.map (fun g => g + colSum gy1 + colSum gy2)
  rw [Option.map_map]
  rfl

/-- Claim C2 counterexample: constructing a `Linear` with the no-bias flag
does NOT omit `gW` — `numpy.empty_like(self.W)` runs unconditionally, and
`gradient_names` still reports `gW` while `b` is absent. -/
theorem C2_counterexample :
    (Linear.init (fun _ _ => 0 : Mat 1 1) (fun _ _ => 0) (fun _ => 0) 0
        true).gradient_names = ["gW"]
    ∧ (Linear.init (fun _ _ => 0 : Mat 1 1) (fun _ _ => 0) (fun _ => 0) 0
        true).b = none := ⟨rfl, rfl⟩

/-- Claim C2, amended: `gb` exists if and only if `b` exists, but `gW` is
created unconditionally: the no-bias configuration omits only `b` and `gb`,
and `gradient_names` reports `gW` in both configurations. -/
theorem C2_gb_iff_b {i o : ℕ} (W0 gW0 : Mat o i) (gb0 : Fin o → ℚ)
    (bias : ℚ) (nobias : Bool) :
    (Linear.init W0 gW0 gb0 bias nobias).gb.isSome
        = (Linear.init W0 gW0 gb0 bias nobias).b.isSome
    ∧ (Linear.init W0 gW0 gb0 bias nobias).b.isSome = !nobias
    ∧ (Linear.init W0 gW0 gb0 bias nobias).gW = gW0
    ∧ (Linear.init W0 gW0 gb0 bias nobias).gradient_names
        = (if nobias then ["gW"] else ["gW", "gb"])
    ∧ "gW" ∈ (Linear.init W0 gW0 gb0 bias nobias).gradient_names := by
  cases nobias <;>
    simp [Linear.init, Linear.gradient_names]

/-- Claim C6: `Linear` forward on a `(batch, in_size)` input is `X·Wᵀ` with
`b` broadcast onto every row when the bias is present (and plain `X·Wᵀ`
without it); in particular `Linear(3, 2, bias=0.5)` on a `(4, 3)` batch
yields the `(4, 2)` output whose rows are `x_row·Wᵀ + [0.5, 0.5]`. -/
theorem C6_linear_forward_affine {i o bt : ℕ}
    (W0 gW0 : Mat o i) (gb0 : Fin o → ℚ) (bias : ℚ) (x : Mat bt i) :
    (Linear.init W0 gW0 gb0 bias false).forward_cpu x
        = (fun r c => matMul x (matT W0) r c + bias)
    ∧ (Linear.init W0 gW0 gb0 bias true).forward_cpu x = matMul x (matT W0)
    ∧ ∀ (W4 gW4 : Mat 2 3) (gb4 : Fin 2 → ℚ) (x4 : Mat 4 3),
        (Linear.init W4 gW4 gb4 (1 / 2) false).forward_cpu x4
          = fun r c => (∑ k, x4 r k * W4 c k) + 1 / 2 :=
  ⟨rfl, rfl, fun _ _ _ _ => rfl⟩

/-- Claim C10: the gradient accumulators are allocated with unspecified
contents (`numpy.empty_like`), nothing in this layer resets them, and after
any sequence of `backward` calls each accumulator equals its arbitrary
initial contents plus the sum of the per-call contributions, while `W` and
`b` are untouched. -/
theorem C10_accumulators_additive_from_uninitialized {i o bt : ℕ}
    (W0 gW0 : Mat o i) (gb0 : Fin o → ℚ) (bias : ℚ) (nobias : Bool)
    (calls : List (Mat bt i × Mat bt o)) :
    ((Linear.init W0 gW0 gb0 bias nobias).backwardFold calls).gW
        = gW0 + (calls.map (fun p => matMul (matT p.2) p.1)).sum
    ∧ ((Linear.init W0 gW0 gb0 bias nobias).backwardFold calls).gb
        = (Linear.init W0 gW0 gb0 bias nobias).gb.map
            (fun g => g + (calls.map (fun p => colSum p.2)).sum)
    ∧ ((Linear.init W0 gW0 gb0 bias nobias).backwardFold calls).W = W0
    ∧ ((Linear.init W0 gW0 gb0 bias nobias).backwardFold calls).b
        = (Linear.init W0 gW0 gb0 bias nobias).b := by
  refine ⟨?_, backwardFold_gb calls _, ?_, (backwardFold_W_b calls _).2⟩
  · rw [backwardFold_gW]
    cases nobias <;> rfl
  · rw [(backwardFold_W_b calls _).1]
    cases nobias <;> rfl

theorem unflatten_as_mat {bt d1 d2 : ℕ} (x : Fin bt → Fin d1 → Fin d2 → ℚ) :
    unflatten (as_mat x) = x := by
  funext r i j
  have h2 : 0 < d2 := j.pos
  have hdiv : (i.val * d2 + j.val) / d2 = i.val := by
    rw [Nat.mul_comm i.val d2, Nat.mul_add_div h2, Nat.div_eq_of_lt j.isLt,
      Nat.add_zero]
  have hmod : (i.val * d2 + j.val) % d2 = j.val := by
    rw [Nat.mul_comm i.val d2, Nat.mul_add_mod, Nat.mod_eq_of_lt j.isLt]
  simp only [unflatten, as_mat]
  congr 1
  · exact Fin.ext hdiv
  · exact Fin.ext hmod

theorem as_mat_unflatten {bt d1 d2 : ℕ} (M : Mat bt (d1 * d2)) :
    as_mat (unflatten M) = M := by
  funext r j
  have hj := j.isLt
  have h2 : 0 < d2 := by
    rcases Nat.eq_zero_or_pos d2 with h | h
    · subst h; simp at hj
    · exact h
  simp only [as_mat, unflatten]
  congr 1
  apply Fin.ext
  show j.val / d2 * d2 + j.val % d2 = j.val
  rw [Nat.mul_comm, Nat.div_add_mod]

/-- Claim C7: a `(batch, d1, d2)` input is processed exactly as its
`(batch, d1*d2)` C-order reshape — forward gives the same output, the
state update is the same, and the input gradient comes back reshaped to
`(batch, d1, d2)`; `as_mat`/`unflatten` are mutually inverse, so that
reshaped gradient carries exactly the 2-D gradient. -/
theorem C7_reshape_transparency {i1 i2 o bt : ℕ} (l : Linear (i1 * i2) o)
    (x : Fin bt → Fin i1 → Fin i2 → ℚ) (gy : Mat bt o)
    (M : Mat bt (i1 * i2)) :
    l.forward3 x = l.forward_cpu (as_mat x)
    ∧ (l.backward3 x gy).1 = (l.backward_cpu (as_mat x) gy).1
    ∧ (l.backward3 x gy).2 = unflatten ((l.backward_cpu (as_mat x) gy).2)
    ∧ unflatten (as_mat x) = x
    ∧ as_mat (unflatten M) = M :=
  ⟨rfl, rfl, rfl, unflatten_as_mat x, as_mat_unflatten M⟩

/-- Claim C3 counterexample: `div` with a plain Python scalar constant `0`
does NOT complete with an IEEE infinity — the dispatch function eagerly
computes `1. / rhs` in Python, which raises `ZeroDivisionError`. -/
theorem C3_counterexample :
    div (fun _ => 1 : Vec 1 ℚ) (PyObj.num 0)
      = Except.error PyErr.zeroDivisionError := by
  simp [div, pyRecip]

/-- Claim C3, amended: inside the array arithmetic nothing is special-cased
— tensor⊗tensor `Div` forward and backward complete and propagate IEEE
infinities/NaNs (`1/0 = inf`, `0/0 = nan`, backward likewise), zero to a
negative power yields `inf`, and log of zero / of a negative value yields
`-inf` / NaN — but the one exception is the `div` dispatch function with a
plain scalar constant divisor of zero, whose eagerly computed Python
reciprocal `1. / rhs` raises `ZeroDivisionError` at dispatch time. -/
theorem C3_ieee_propagation_except_scalar_div :
    (∀ (n : ℕ) (x : Vec n ℚ),
        div x (PyObj.num 0) = Except.error PyErr.zeroDivisionError)
    ∧ Div.forward (fun _ => NFloat.fin 1 : Vec 1 NFloat)
        (fun _ => NFloat.fin 0) = (fun _ => NFloat.inf)
    ∧ Div.forward (fun _ => NFloat.fin 0 : Vec 1 NFloat)
        (fun _ => NFloat.fin 0) = (fun _ => NFloat.nan)
    ∧ Div.backward_cpu (fun _ => NFloat.fin 1 : Vec 1 NFloat)
        (fun _ => NFloat.fin 0) (fun _ => NFloat.fin 1)
        = (fun _ => NFloat.inf, fun _ => NFloat.ninf)
    ∧ (∀ f : NFloat → NFloat → NFloat,
        PowVarConst.forward (npPow f) (PyConst.num (NFloat.fin (-1)))
          (fun _ => NFloat.fin 0 : Vec 1 NFloat) = fun _ => NFloat.inf)
    ∧ (∀ f : ℚ → ℚ,
        Log.forward_cpu (npLog f) (fun _ => NFloat.fin 0 : Vec 1 NFloat)
          = fun _ => NFloat.ninf)
    ∧ (∀ f : ℚ → ℚ,
        Log.forward_cpu (npLog f)
            (fun _ => NFloat.fin (-1) : Vec 1 NFloat)
          = fun _ => NFloat.nan) := by
  refine ⟨fun n x => by simp [div, pyRecip], ?_, ?_, ?_, ?_, ?_, ?_⟩
  · decide
  · decide
  · decide
  · intro f
    funext i
    norm_num [PowVarConst.forward, PyConst.toVec, npPow]
  · intro f
    funext i
    norm_num [Log.forward_cpu, npLog]
  · intro f
    funext i
    norm_num [Log.forward_cpu, npLog]

/-- Claim C4 counterexample: the `add` dispatch function, given an operand
that is neither a graph value nor a numeric/array constant, raises nothing
at dispatch time — it constructs an `AddConstant` operation instance. -/
theorem C4_counterexample :
    add (fun _ => 1 : Vec 1 ℚ) (PyObj.other "object")
      = Except.ok (Applied.AddConstant (PyObj.other "object")
          (fun _ => 1)) := rfl

/-- Claim C4, amended: only `sub` and `div` fail at dispatch time on a
non-numeric, non-variable operand (their eager Python `-rhs` / `1. / rhs`
raises `TypeError`); `add`, `mul`, `rsub`, `rdiv`, `pow` and `rpow`
construct the constant-operation instance without any type check, and the
`TypeError` surfaces only when the instance's `forward` runs the
arithmetic. -/
theorem C4_dispatch_type_errors {n : ℕ} (x : Vec n ℚ) (s : String)
    (hp : ℚ → ℚ → ℚ) :
    add x (PyObj.other s) = Except.ok (Applied.AddConstant (PyObj.other s) x)
    ∧ Applied.runForward hp (Applied.AddConstant (PyObj.other s) x)
        = Except.error PyErr.typeError
    ∧ mul x (PyObj.other s)
        = Except.ok (Applied.MulConstant (PyObj.other s) x)
    ∧ Applied.runForward hp (Applied.MulConstant (PyObj.other s) x)
        = Except.error PyErr.typeError
    ∧ rsub x (PyObj.other s)
        = Except.ok (Applied.SubFromConstant (PyObj.other s) x)
    ∧ Applied.runForward hp (Applied.SubFromConstant (PyObj.other s) x)
        = Except.error PyErr.typeError
    ∧ rdiv x (PyObj.other s)
        = Except.ok (Applied.DivFromConstant (PyObj.other s) x)
    ∧ Applied.runForward hp (Applied.DivFromConstant (PyObj.other s) x)
        = Except.error PyErr.typeError
    ∧ pow x (PyObj.other s)
        = Except.ok (Applied.PowVarConst (PyObj.other s) x)
    ∧ Applied.runForward hp (Applied.PowVarConst (PyObj.other s) x)
        = Except.error PyErr.typeError
    ∧ rpow x (PyObj.other s)
        = Except.ok (Applied.PowConstVar (PyObj.other s) x)
    ∧ Applied.runForward hp (Applied.PowConstVar (PyObj.other s) x)
        = Except.error PyErr.typeError
    ∧ sub x (PyObj.other s) = Except.error PyErr.typeError
    ∧ div x (PyObj.other s) = Except.error PyErr.typeError :=
  ⟨rfl, rfl, rfl, rfl, rfl, rfl, rfl, rfl, rfl, rfl, rfl, rfl, rfl, rfl⟩

/-- Claim C5: the reversed dispatch functions perform the operand-swapped
operation — `rsub(x, c)` builds `SubFromConstant(c)` computing `c - x`
elementwise with backward `-gy`; `rdiv(x, c)` builds `DivFromConstant(c)`
computing `c / x` with backward `-c·gy/x²`; `rpow(x, c)` builds
`PowConstVar(c)` computing `c ** x` with backward `ln(c)·(c**x)·gy`. -/
theorem C5_reversed_dispatch {n : ℕ} (x gy : Vec n ℚ) (c : ℚ)
    (hp : ℚ → ℚ → ℚ) (lg : ℚ → ℚ) :
    rsub x (PyObj.num c)
        = Except.ok (Applied.SubFromConstant (PyObj.num c) x)
    ∧ SubFromConstant.forward (PyConst.num c) x = (fun i => c - x i)
    ∧ SubFromConstant.backward gy = (fun i => -gy i)
    ∧ rdiv x (PyObj.num c)
        = Except.ok (Applied.DivFromConstant (PyObj.num c) x)
    ∧ DivFromConstant.forward (PyConst.num c) x = (fun i => c / x i)
    ∧ DivFromConstant.backward_cpu (PyConst.num c) x gy
        = (fun i => -(c * gy i / x i ^ (2 : ℕ)))
    ∧ rpow x (PyObj.num c)
        = Except.ok (Applied.PowConstVar (PyObj.num c) x)
    ∧ PowConstVar.forward_cpu hp (PyConst.num c) x = (fun i => hp c (x i))
    ∧ PowConstVar.backward_cpu lg (PyConst.num c)
          (PowConstVar.forward_cpu hp (PyConst.num c) x) gy
        = (fun i => lg c * hp c (x i) * gy i) := by
  refine ⟨rfl, rfl, rfl, rfl, rfl, ?_, rfl, rfl, rfl⟩
  funext i
  show -(fun _ => c : Vec n ℚ) i * gy i / (x i ^ (2 : ℕ))
      = -(c * gy i / x i ^ (2 : ℕ))
  ring

/-- Claim C8: the installer binds the reflected `__radd__`/`__rmul__` slots
to the same `add`/`mul` dispatch functions as the direct slots, so
`add(x, c)` and the reflected form used for `c + x` produce identical
forward values, and elementwise addition and multiplication with the
constant commute. -/
theorem C8_commutative_reflected {n : ℕ} (x : Vec n ℚ) (c : ℚ)
    (hp : ℚ → ℚ → ℚ) :
    (install_variable_arithmetics n).raddSlot
        = (install_variable_arithmetics n).addSlot
    ∧ (install_variable_arithmetics n).rmulSlot
        = (install_variable_arithmetics n).mulSlot
    ∧ (add x (PyObj.num c)).bind (Applied.runForward hp)
        = Except.ok (fun i => x i + c)
    ∧ (fun i => x i + c) = (fun i => c + x i)
    ∧ (mul x (PyObj.num c)).bind (Applied.runForward hp)
        = Except.ok (fun i => c * x i)
    ∧ (fun i => c * x i) = (fun i => x i * c) := by
  refine ⟨rfl, rfl, rfl, ?_, rfl, ?_⟩
  · funext i; exact add_comm (x i) c
  · funext i; exact mul_comm c (x i)

theorem linear_forward_parity {i o bt : ℕ} (l : Linear i o) (xm : Mat bt i) :
    l.forward_cpu xm = l.forward_gpu xm := by
  unfold Linear.forward_cpu Linear.forward_gpu
  cases l.b with
  | none => rfl
  | some b =>
      funext r c
      have hidx : (⟨(r.val * o + c.val) % o, Nat.mod_lt _ c.pos⟩ : Fin o)
          = c := by
        apply Fin.ext
        show (r.val * o + c.val) % o = c.val
        rw [Nat.mul_comm r.val o, Nat.mul_add_mod, Nat.mod_eq_of_lt c.isLt]
      show matMul xm (matT l.W) r c + b c
          = matMul xm (matT l.W) r c
            + b ⟨(r.val * o + c.val) % o, Nat.mod_lt _ c.pos⟩
      rw [hidx]

/-- Claim C9: every backend-specialised implementation (`Mul`/`Div`
backward, the `DivFromConstant`/`Pow` family in both the scalar-constant
and array-constant kernel branches, and `Linear` forward/backward) computes
the same result as the portable CPU implementation on the same inputs, in
the exact-arithmetic model (the device `__powf`/`__logf` intrinsics and the
host power/log are both modelled by the same abstract `hp`/`lg`, which is
what "identical up to floating-point rounding" means here; the cached
`self.y` consumed by the CPU pow backwards is the corresponding forward
output). -/
theorem C9_backend_parity {n i o bt : ℕ} (hp : ℚ → ℚ → ℚ) (lg : ℚ → ℚ)
    (x0 x1 gy : Vec n ℚ) (v : PyConst n ℚ)
    (l : Linear i o) (xm : Mat bt i) (gym : Mat bt o) :
    Mul.backward_cpu x0 x1 gy = Mul.backward_gpu x0 x1 gy
    ∧ Div.backward_cpu x0 x1 gy = Div.backward_gpu x0 x1 gy
    ∧ DivFromConstant.backward_cpu v x0 gy
        = DivFromConstant.backward_gpu v x0 gy
    ∧ PowVarVar.forward_cpu hp x0 x1 = PowVarVar.forward_gpu hp x0 x1
    ∧ PowVarVar.backward_cpu hp lg x0 x1 (PowVarVar.forward_cpu hp x0 x1) gy
        = PowVarVar.backward_gpu hp lg x0 x1 gy
    ∧ PowVarConst.backward_cpu hp v x0 gy
        = PowVarConst.backward_gpu hp v x0 gy
    ∧ PowConstVar.forward_cpu hp v x0 = PowConstVar.forward_gpu hp v x0
    ∧ PowConstVar.backward_cpu lg v (PowConstVar.forward_cpu hp v x0) gy
        = PowConstVar.backward_gpu hp lg v x0 gy
    ∧ l.forward_cpu xm = l.forward_gpu xm
    ∧ l.backward_cpu xm gym = l.backward_gpu xm gym := by
  refine ⟨rfl, rfl, ?_, rfl, rfl, ?_, ?_, ?_, linear_forward_parity l xm, rfl⟩
  · cases v with
    | num c =>
        funext i
        show -(fun _ => c : Vec n ℚ) i * gy i / (x0 i ^ (2 : ℕ))
            = -c * gy i / (x0 i * x0 i)
        rw [pow_two]
    | arr a =>
        funext i
        show -a i * gy i / (x0 i ^ (2 : ℕ)) = -a i * gy i / (x0 i * x0 i)
        rw [pow_two]
  · cases v <;> rfl
  · cases v <;> rfl
  · cases v <;> rfl

end Chainer
